import Mathlib

/-!
Shallow embedding of the semantic notes application (NoteSphere).

The source under src is a React frontend: App.jsx holds the notes state with
fetchNotes and handleSaveNote, NoteEditor.jsx is the editing surface, and
NoteVisualizer.jsx renders the notes as boxes in a three.js scene.  The
semantic positioning pipeline (Embedding Provider, Vector Store, Similarity
Index, Projection Engine, Update Coordinator) is specified but has no code in
src; every definition for it below is modelled from the spec and says so in
its doc comment.  Machine floating point is modelled with rationals.
-/

namespace SemanticNotes

/-- Embedding vectors: fixed-length ordered sequences of numbers. -/
abbrev Vec := List ℚ

/-- Dot product of two vectors. -/
def dot (u v : Vec) : ℚ := (List.zipWith (fun a b => a * b) u v).sum

/-- Squared Euclidean norm of a vector. -/
def nsq (u : Vec) : ℚ := dot u u

/-- Modelled from the spec: the Similarity Index uses cosine similarity, and an
edge is present only if the score exceeds the connection threshold.  Cosine
similarity is the dot product divided by the square root of the product of the
squared norms; since that square root leaves the rationals, the comparison
against a threshold t is encoded by its equivalent sign-and-square form, which
is exact whenever both vectors are nonzero. -/
def simExceeds (u v : Vec) (t : ℚ) : Bool :=
  if 0 ≤ t then
    decide (0 < dot u v) && decide (t ^ 2 * (nsq u * nsq v) < dot u v ^ 2)
  else
    decide (0 ≤ dot u v) || decide (dot u v ^ 2 < t ^ 2 * (nsq u * nsq v))

/-- Modelled from the spec: an Embedding Record holds the document id (1:1
with the document), its latest embedding vector and the content hash at the
time of embedding; the generation timestamp is omitted because no claim
mentions it. -/
structure EmbeddingRecord where
  docId : Nat
  vector : Vec
  contentHash : Nat
deriving DecidableEq

/-- All unordered pairs of elements of a list, each pair listed once. -/
def pairs {α : Type _} : List α → List (α × α)
  | [] => []
  | x :: xs => xs.map (fun y => (x, y)) ++ pairs xs

/-- Modelled from the spec: edgesAbove returns the thresholded similarity
edges over the full embedding set, as unordered pairs of document ids, each
pair considered once in corpus order. -/
def edgesAbove (recs : List EmbeddingRecord) (t : ℚ) : List (Nat × Nat) :=
  ((pairs recs).filter (fun p => simExceeds p.1.vector p.2.vector t)).map
    (fun p => (p.1.docId, p.2.docId))

/-- A 2D coordinate. -/
abbrev Pos := ℚ × ℚ

/-- Modelled from the spec: the persistent layout state of the Projection
Engine, one optional Layout Point coordinate per document id. -/
abbrev Layout := Nat → Option Pos

/-- Clamp a displacement into the interval from -eps to eps. -/
def clamp (eps v : ℚ) : ℚ := max (-eps) (min eps v)

/-- Modelled from the spec: incremental re-projection after a single document
edit.  The edited document is treated as remove-then-reinsert at a
neighbor-seeded position newPos, while every other point undergoes only a
bounded local relaxation: its per-axis displacement, given by the relaxation
field relax, is clamped to eps. -/
def incrementalUpdate (eps : ℚ) (relax : Nat → Pos) (d : Nat) (newPos : Pos)
    (L : Layout) : Layout :=
  fun X =>
    if X = d then some newPos
    else (L X).map (fun p =>
      (p.1 + clamp eps (relax X).1, p.2 + clamp eps (relax X).2))

/-- Modelled from the spec: a Layout Snapshot, the unit published to rendering
consumers: the point list, the similarity edges and a version counter. -/
structure Snapshot where
  points : List (Nat × Pos)
  edges : List (Nat × Nat)
  version : Nat
deriving DecidableEq

/-- Modelled from the spec: the published snapshot carries one Layout Point
per current Embedding Record (records and points are 1:1) together with the
thresholded similarity edges over those same records. -/
def publishSnapshot (L : Layout) (recs : List EmbeddingRecord) (t : ℚ)
    (v : Nat) : Snapshot :=
  ⟨recs.map (fun r => (r.docId, (L r.docId).getD (0, 0))), edgesAbove recs t, v⟩

/-- Modelled from the spec: configuration values. -/
structure Config where
  similarityThreshold : ℚ
  maxLatencyMs : Nat
  rebuildTriggerEditCount : Nat
deriving DecidableEq

/-- Modelled from the spec: the InvalidInput entry of the error taxonomy,
raised for empty or unembeddable content. -/
inductive EmbedError where
  | invalidInput
deriving DecidableEq

/-- The JavaScript trim operation on a list of characters: leading and
trailing whitespace removed. -/
def jsTrim (s : List Char) : List Char :=
  ((s.dropWhile Char.isWhitespace).reverse.dropWhile Char.isWhitespace).reverse

/-- Modelled from the spec: embed wraps a pretrained local text encoder enc,
treated as a black box and passed as a parameter; it has no randomness, and
empty or whitespace-only text is rejected with an InvalidInput error rather
than producing a degenerate vector. -/
def embed (enc : List Char → Vec) (text : List Char) : Except EmbedError Vec :=
  if jsTrim text = [] then .error .invalidInput else .ok (enc text)

/-- Modelled from the spec: Vector Store upsert, atomic per document id; the
record for the given id is replaced whole, or appended when absent. -/
def upsert (store : List EmbeddingRecord) (r : EmbeddingRecord) :
    List EmbeddingRecord :=
  if store.any (fun e => e.docId = r.docId) then
    store.map (fun e => if e.docId = r.docId then r else e)
  else store ++ [r]

/-- Modelled from the spec: the inbound interface onDocumentChanged.  The text
is embedded; on InvalidInput the error is surfaced to the caller and the store
is returned unchanged, otherwise the Embedding Record of that document is
atomically replaced. -/
def onDocumentChanged (enc : List Char → Vec) (store : List EmbeddingRecord)
    (d : Nat) (text : List Char) (hash : Nat) :
    List EmbeddingRecord × Option EmbedError :=
  match embed enc text with
  | .error e => (store, some e)
  | .ok v => (upsert store ⟨d, v, hash⟩, none)

/-- Modelled from the spec: the deterministic placement used by the full
rebuild pass, a stand-in for the seeded global reduction; it is a pure
function of the seed and the document id. -/
def placeAt (seed d : Nat) : Pos :=
  (((seed + d : Nat) : ℚ), ((seed * d + d : Nat) : ℚ))

/-- Modelled from the spec: a full global reduction pass over all embeddings
with a fixed seed; the layout produced is a pure function of the
configuration, the seed and the embedding set, which is what seeded
determinism requires. -/
def fullRebuild (_cfg : Config) (seed : Nat) (recs : List EmbeddingRecord) :
    Layout :=
  fun d =>
    if recs.any (fun r => r.docId = d) then some (placeAt seed d) else none

/-- Application of a direct similarity transform of the plane: rotation and
uniform scaling by the matrix with rows (a, -b) and (b, a), followed by a
translation by (tx, ty). -/
def rigidMap (a b tx ty : ℚ) (p : Pos) : Pos :=
  (a * p.1 - b * p.2 + tx, b * p.1 + a * p.2 + ty)

/-- Two layouts are identical up to a rigid transform: some nondegenerate
rotation with uniform scale and a translation carries every point of the first
onto the point of the second for the same document id, and both layouts place
the same document ids. -/
def RigidRelated (L1 L2 : Layout) : Prop :=
  ∃ a b tx ty : ℚ, 0 < a ^ 2 + b ^ 2 ∧
    (∀ d : Nat, (L1 d).isSome = (L2 d).isSome) ∧
    ∀ d p, L1 d = some p → L2 d = some (rigidMap a b tx ty p)

/-- Modelled from the spec: a document change event as delivered to the
Update Coordinator. -/
structure DocChange where
  docId : Nat
  content : List Char
  contentHash : Nat
deriving DecidableEq

/-- Modelled from the spec: Update Coordinator state: the snapshot version
counter, the Vector Store contents and the persistent layout state. -/
structure CoordState where
  version : Nat
  store : List EmbeddingRecord
  layout : Layout

/-- Modelled from the spec: the serialized shared-state write and publication
performed by a successful pipeline run: atomic record replacement, incremental
re-projection of the changed document only, and publication of the snapshot
with the next version. -/
def applyChange (cfg : Config) (s : CoordState) (d : Nat) (v : Vec)
    (hash : Nat) : CoordState × Snapshot :=
  let store2 := upsert s.store ⟨d, v, hash⟩
  let layout2 := incrementalUpdate 0 (fun _ => (0, 0)) d (placeAt 0 d) s.layout
  (⟨s.version + 1, store2, layout2⟩,
   publishSnapshot layout2 store2 cfg.similarityThreshold (s.version + 1))

/-- Modelled from the spec: one pipeline run for one change event.  The
content is embedded; on failure the error ends the run and nothing is
published; on success the shared state is updated and the next snapshot
version is published. -/
def runPipeline (cfg : Config) (enc : List Char → Vec) (s : CoordState)
    (ev : DocChange) : CoordState × Option Snapshot :=
  match embed enc ev.content with
  | .error _ => (s, none)
  | .ok v =>
    ((applyChange cfg s ev.docId v ev.contentHash).1,
     some (applyChange cfg s ev.docId v ev.contentHash).2)

/-- Modelled from the spec: the snapshots published over a sequence of
pipeline runs, in publication order. -/
def publishedSnapshots (cfg : Config) (enc : List Char → Vec) :
    CoordState → List DocChange → List Snapshot
  | _, [] => []
  | s, ev :: evs =>
    ((runPipeline cfg enc s ev).2).toList
      ++ publishedSnapshots cfg enc (runPipeline cfg enc s ev).1 evs

/-- A note as held in the React state of App.jsx: the backend-assigned id, the
content, and an optional position array as consumed by NoteVisualizer. -/
structure Note where
  id : Nat
  content : List Char
  position : Option (List ℚ)
deriving DecidableEq

/-- A node of the rendered three.js scene of NoteVisualizer.jsx: the React key
and the position passed to the Box element. -/
structure RenderedNode where
  key : Nat
  position : List ℚ
deriving DecidableEq

/-- NoteVisualizer.jsx renders one Box per note, keyed by the note id, at the
stored position when present and at the default origin otherwise. -/
def renderNode (n : Note) : RenderedNode :=
  ⟨n.id, n.position.getD [0, 0, 0]⟩

/-- NoteVisualizer.jsx maps the notes collection to the rendered node list. -/
def renderNodes (notes : List Note) : List RenderedNode :=
  notes.map renderNode

/-- Result of the GET request in fetchNotes of App.jsx: either a response
whose data field may be absent, or an error. -/
inductive FetchResult where
  | ok : Option (List Note) → FetchResult
  | error : Nat → FetchResult
deriving DecidableEq

/-- App.jsx fetchNotes: on success the notes state becomes the response data,
or the empty list when the data field is absent; on any error the notes state
is set to the empty list. -/
def fetchNotes (res : FetchResult) : List Note :=
  match res with
  | .ok d => d.getD []
  | .error _ => []

/-- Result of the POST request in handleSaveNote of App.jsx. -/
inductive SaveResult where
  | ok : Note → SaveResult
  | error : Nat → SaveResult
deriving DecidableEq

/-- App.jsx handleSaveNote: content that trims to the empty string is rejected
up front (alert and early return) leaving the notes state unchanged; otherwise
the note is posted and on success the returned note object is appended to the
previous notes state; on a post error the state is also unchanged. -/
def handleSaveNote (prev : List Note) (content : List Char)
    (post : SaveResult) : List Note :=
  if jsTrim content = [] then prev
  else
    match post with
    | .ok n => prev ++ [n]
    | .error _ => prev

/-- The squared norm of a vector is nonnegative. -/
theorem nsq_nonneg (u : Vec) : 0 ≤ nsq u := by
  unfold nsq dot
  have h : List.zipWith (fun a b => a * b) u u = u.map (fun a => a * a) := by
    induction u with
    | nil => rfl
    | cons x xs ih => simp [List.zipWith, ih]
  rw [h]
  apply List.sum_nonneg
  intro x hx
  simp only [List.mem_map] at hx
  obtain ⟨a, _, rfl⟩ := hx
  exact mul_self_nonneg a

/-- Raising the threshold can only drop an edge: whenever the encoded cosine
comparison passes the higher threshold it passes the lower one. -/
theorem simExceeds_mono (u v : Vec) (t1 t2 : ℚ) (h : t1 ≤ t2)
    (h2 : simExceeds u v t2 = true) : simExceeds u v t1 = true := by
  have hn : 0 ≤ nsq u * nsq v := mul_nonneg (nsq_nonneg u) (nsq_nonneg v)
  unfold simExceeds at h2 ⊢
  by_cases h1t : (0 : ℚ) ≤ t1
  · have h2t : (0 : ℚ) ≤ t2 := le_trans h1t h
    simp only [if_pos h1t, if_pos h2t, Bool.and_eq_true, decide_eq_true_eq]
      at h2 ⊢
    refine ⟨h2.1, lt_of_le_of_lt ?_ h2.2⟩
    have hp : t1 ^ 2 ≤ t2 ^ 2 := pow_le_pow_left₀ h1t h 2
    exact mul_le_mul_of_nonneg_right hp hn
  · by_cases h2t : (0 : ℚ) ≤ t2
    · simp only [if_neg h1t, if_pos h2t, Bool.and_eq_true, Bool.or_eq_true,
        decide_eq_true_eq] at h2 ⊢
      exact Or.inl (le_of_lt h2.1)
    · simp only [if_neg h1t, if_neg h2t, Bool.or_eq_true, decide_eq_true_eq]
        at h2 ⊢
      rcases h2 with h2 | h2
      · exact Or.inl h2
      · refine Or.inr (lt_of_lt_of_le h2 ?_)
        have ht2 : t2 ^ 2 ≤ t1 ^ 2 := by nlinarith
        exact mul_le_mul_of_nonneg_right ht2 hn

/-- Both components of a pair drawn from pairs of a list belong to the list. -/
theorem mem_pairs {α : Type _} {x y : α} :
    ∀ {l : List α}, (x, y) ∈ pairs l → x ∈ l ∧ y ∈ l := by
  intro l
  induction l with
  | nil => intro h; simp [pairs] at h
  | cons a l ih =>
    intro h
    rw [pairs, List.mem_append] at h
    rcases h with h | h
    · simp only [List.mem_map, Prod.mk.injEq] at h
      obtain ⟨b, hb, hax, hby⟩ := h
      subst hax; subst hby
      exact ⟨List.mem_cons_self a l, List.mem_cons_of_mem a hb⟩
    · obtain ⟨hx, hy⟩ := ih h
      exact ⟨List.mem_cons_of_mem a hx, List.mem_cons_of_mem a hy⟩

/-- A clamped displacement is bounded by the clamp radius. -/
theorem abs_clamp_le (eps v : ℚ) (h : 0 ≤ eps) : |clamp eps v| ≤ eps := by
  unfold clamp
  rw [abs_le]
  constructor
  · exact le_max_left _ _
  · exact max_le (by linarith) (min_le_left _ _)

/-- Claim C7: threshold monotonicity.  For a fixed embedding set and
thresholds t1 at most t2, the edges above t2 form a subset of the edges above
t1, and raising the threshold never increases the number of edges. -/
theorem edgesAbove_antitone (recs : List EmbeddingRecord) (t1 t2 : ℚ)
    (h : t1 ≤ t2) :
    edgesAbove recs t2 ⊆ edgesAbove recs t1 ∧
    (edgesAbove recs t2).length ≤ (edgesAbove recs t1).length := by
  have hsub : ((pairs recs).filter
        (fun p => simExceeds p.1.vector p.2.vector t2)).Sublist
      ((pairs recs).filter (fun p => simExceeds p.1.vector p.2.vector t1)) :=
    List.monotone_filter_right _
      (fun p hp => simExceeds_mono p.1.vector p.2.vector t1 t2 h hp)
  have hmap := hsub.map (fun p : EmbeddingRecord × EmbeddingRecord =>
    (p.1.docId, p.2.docId))
  exact ⟨hmap.subset, hmap.length_le⟩

/-- Witness for claim C7 at a concrete embedding set and threshold pair. -/
theorem edgesAbove_antitone_witness :
    (0 : ℚ) ≤ 1 ∧
    (edgesAbove [⟨1, [1], 0⟩, ⟨2, [1], 0⟩] 1
        ⊆ edgesAbove [⟨1, [1], 0⟩, ⟨2, [1], 0⟩] 0 ∧
      (edgesAbove [⟨1, [1], 0⟩, ⟨2, [1], 0⟩] 1).length
        ≤ (edgesAbove [⟨1, [1], 0⟩, ⟨2, [1], 0⟩] 0).length) :=
  ⟨by norm_num, edgesAbove_antitone [⟨1, [1], 0⟩, ⟨2, [1], 0⟩] 0 1 (by norm_num)⟩

/-- Claim C1: stability.  When a document other than X is edited and the
layout is updated incrementally (no full rebuild), the published position of X
moves by at most the relaxation bound eps in each coordinate. -/
theorem stability_incrementalUpdate (eps : ℚ) (relax : Nat → Pos) (d : Nat)
    (newPos : Pos) (L : Layout) (X : Nat) (x y x2 y2 : ℚ) (heps : 0 ≤ eps)
    (hXd : X ≠ d) (h1 : L X = some (x, y))
    (h2 : incrementalUpdate eps relax d newPos L X = some (x2, y2)) :
    |x2 - x| ≤ eps ∧ |y2 - y| ≤ eps := by
  unfold incrementalUpdate at h2
  rw [if_neg hXd, h1] at h2
  have h2p : (x + clamp eps (relax X).1, y + clamp eps (relax X).2) = (x2, y2) :=
    Option.some.inj h2
  have hx : x + clamp eps (relax X).1 = x2 := congrArg Prod.fst h2p
  have hy : y + clamp eps (relax X).2 = y2 := congrArg Prod.snd h2p
  constructor
  · have : x2 - x = clamp eps (relax X).1 := by rw [← hx]; ring
    rw [this]
    exact abs_clamp_le eps _ heps
  · have : y2 - y = clamp eps (relax X).2 := by rw [← hy]; ring
    rw [this]
    exact abs_clamp_le eps _ heps

/-- Witness for claim C1: document 1 is edited, document 0 stays within the
bound. -/
theorem stability_incrementalUpdate_witness :
    (0 : ℚ) ≤ 0 ∧ (0 : Nat) ≠ 1 ∧
    ((fun n => if n = 0 then some ((2 : ℚ), (3 : ℚ)) else none) : Layout) 0
      = some (2, 3) ∧
    incrementalUpdate 0 (fun _ => (0, 0)) 1 (5, 5)
      (fun n => if n = 0 then some ((2 : ℚ), (3 : ℚ)) else none) 0
      = some (2, 3) ∧
    (|(2 : ℚ) - 2| ≤ 0 ∧ |(3 : ℚ) - 3| ≤ 0) :=
  ⟨le_refl 0, by decide, by simp,
    by simp [incrementalUpdate, clamp],
    stability_incrementalUpdate 0 (fun _ => (0, 0)) 1 (5, 5)
      (fun n => if n = 0 then some ((2 : ℚ), (3 : ℚ)) else none) 0 2 3 2 3
      (le_refl 0) (by decide) (by simp) (by simp [incrementalUpdate, clamp])⟩

/-- Claim C2: determinism.  Two full rebuild passes over the same corpus with
the same configuration and seed give layouts identical up to a rigid transform
and identical similarity edge sets, and embed returns the same result on every
call with identical input. -/
theorem rebuild_deterministic (cfg : Config) (seed : Nat)
    (recs : List EmbeddingRecord) (enc : List Char → Vec)
    (text : List Char) :
    RigidRelated (fullRebuild cfg seed recs) (fullRebuild cfg seed recs) ∧
    edgesAbove recs cfg.similarityThreshold
      = edgesAbove recs cfg.similarityThreshold ∧
    embed enc text = embed enc text := by
  refine ⟨⟨1, 0, 0, 0, by norm_num, fun d => rfl, fun d p hp => ?_⟩, rfl, rfl⟩
  simpa [rigidMap] using hp

/-- Claim C3: snapshot consistency.  Every edge of a published snapshot
references two document ids whose layout points are both present in the point
list of that same snapshot. -/
theorem snapshot_consistent (L : Layout) (recs : List EmbeddingRecord)
    (t : ℚ) (v a b : Nat)
    (h : (a, b) ∈ (publishSnapshot L recs t v).edges) :
    a ∈ (publishSnapshot L recs t v).points.map Prod.fst ∧
    b ∈ (publishSnapshot L recs t v).points.map Prod.fst := by
  have hpts : (publishSnapshot L recs t v).points.map Prod.fst
      = recs.map EmbeddingRecord.docId := by
    simp [publishSnapshot, List.map_map]
  rw [hpts]
  simp only [publishSnapshot, edgesAbove, List.mem_map, List.mem_filter,
    Prod.mk.injEq] at h
  obtain ⟨p, ⟨hmem, _⟩, ha, hb⟩ := h
  obtain ⟨h1, h2⟩ := mem_pairs hmem
  constructor
  · rw [← ha]; exact List.mem_map_of_mem EmbeddingRecord.docId h1
  · rw [← hb]; exact List.mem_map_of_mem EmbeddingRecord.docId h2

/-- Witness for claim C3 at a concrete snapshot with one real edge. -/
theorem snapshot_consistent_witness :
    ((1, 2) ∈ (publishSnapshot (fun _ => none) [⟨1, [1], 0⟩, ⟨2, [1], 0⟩]
        0 7).edges) ∧
    (1 ∈ (publishSnapshot (fun _ => none) [⟨1, [1], 0⟩, ⟨2, [1], 0⟩]
        0 7).points.map Prod.fst ∧
      2 ∈ (publishSnapshot (fun _ => none) [⟨1, [1], 0⟩, ⟨2, [1], 0⟩]
        0 7).points.map Prod.fst) :=
  ⟨by norm_num [publishSnapshot, edgesAbove, pairs, List.filter, simExceeds,
      dot, nsq],
    snapshot_consistent (fun _ => none) [⟨1, [1], 0⟩, ⟨2, [1], 0⟩] 0 7 1 2
      (by norm_num [publishSnapshot, edgesAbove, pairs, List.filter,
        simExceeds, dot, nsq])⟩

/-- A pipeline run whose embedding fails changes nothing and publishes
nothing. -/
theorem runPipeline_error (cfg : Config) (enc : List Char → Vec)
    (s : CoordState) (ev : DocChange) (e : EmbedError)
    (hemb : embed enc ev.content = .error e) :
    runPipeline cfg enc s ev = (s, none) := by
  unfold runPipeline
  rw [hemb]

/-- A pipeline run whose embedding succeeds applies the change and publishes
the resulting snapshot. -/
theorem runPipeline_ok (cfg : Config) (enc : List Char → Vec)
    (s : CoordState) (ev : DocChange) (v : Vec)
    (hemb : embed enc ev.content = .ok v) :
    runPipeline cfg enc s ev
      = ((applyChange cfg s ev.docId v ev.contentHash).1,
         some (applyChange cfg s ev.docId v ev.contentHash).2) := by
  unfold runPipeline
  rw [hemb]

/-- A successful pipeline run advances the state version by one. -/
theorem applyChange_fst_version (cfg : Config) (s : CoordState) (d : Nat)
    (v : Vec) (hash : Nat) :
    (applyChange cfg s d v hash).1.version = s.version + 1 := rfl

/-- A successful pipeline run publishes the snapshot carrying the advanced
version. -/
theorem applyChange_snd_version (cfg : Config) (s : CoordState) (d : Nat)
    (v : Vec) (hash : Nat) :
    (applyChange cfg s d v hash).2.version = s.version + 1 := rfl

/-- Every snapshot published during a run sequence has a version above the
starting state version. -/
theorem version_lt_of_mem_publishedSnapshots (cfg : Config)
    (enc : List Char → Vec) :
    ∀ (evs : List DocChange) (s : CoordState) (snap : Snapshot),
      snap ∈ publishedSnapshots cfg enc s evs → s.version < snap.version := by
  intro evs
  induction evs with
  | nil => intro s snap h; simp [publishedSnapshots] at h
  | cons ev evs ih =>
    intro s snap h
    unfold publishedSnapshots at h
    rw [List.mem_append] at h
    cases hemb : embed enc ev.content with
    | error e =>
      rw [runPipeline_error cfg enc s ev e hemb] at h
      rcases h with h | h
      · simp at h
      · exact ih s snap h
    | ok v =>
      rw [runPipeline_ok cfg enc s ev v hemb] at h
      rcases h with h | h
      · simp only [Option.toList_some, List.mem_singleton] at h
        subst h
        have hv : (applyChange cfg s ev.docId v ev.contentHash).2.version
            = s.version + 1 := applyChange_snd_version cfg s ev.docId v
          ev.contentHash
        omega
      · have h2 : s.version + 1 < snap.version := ih _ snap h
        omega

/-- Claim C6: snapshot versions published by the coordinator over any
sequence of pipeline runs are strictly increasing in publication order: no
snapshot is published with a version at or below an earlier one, and none
appears out of order. -/
theorem snapshotVersions_strictMono (cfg : Config) (enc : List Char → Vec)
    (evs : List DocChange) (s : CoordState) :
    ((publishedSnapshots cfg enc s evs).map Snapshot.version).Pairwise
      (· < ·) := by
  induction evs generalizing s with
  | nil => simp [publishedSnapshots]
  | cons ev evs ih =>
    unfold publishedSnapshots
    cases hemb : embed enc ev.content with
    | error e =>
      rw [runPipeline_error cfg enc s ev e hemb]
      simpa using ih s
    | ok v =>
      rw [runPipeline_ok cfg enc s ev v hemb]
      simp only [Option.toList_some, List.singleton_append, List.map_cons]
      refine List.Pairwise.cons ?_ (ih _)
      intro b hb
      simp only [List.mem_map] at hb
      obtain ⟨snap2, hmem, rfl⟩ := hb
      have hlt : s.version + 1 < snap2.version :=
        version_lt_of_mem_publishedSnapshots cfg enc evs _ snap2 hmem
      exact hlt

/-- Whitespace-only text trims to the empty string. -/
theorem jsTrim_eq_nil (text : List Char)
    (h : text = [] ∨ ∀ c ∈ text, c.isWhitespace) : jsTrim text = [] := by
  rcases h with h | h
  · subst h; rfl
  · unfold jsTrim
    have h1 : text.dropWhile Char.isWhitespace = [] :=
      List.dropWhile_eq_nil_iff.mpr h
    rw [h1]
    rfl

/-- Claim C4: empty or whitespace-only text is rejected by embed with an
InvalidInput error surfaced to the caller, no vector is produced, the store of
embedding records is left untouched, and the frontend save path leaves the
notes state unchanged. -/
theorem embed_rejects_whitespace (enc : List Char → Vec)
    (store : List EmbeddingRecord) (d hash : Nat) (text : List Char)
    (prev : List Note) (post : SaveResult)
    (hws : text = [] ∨ ∀ c ∈ text, c.isWhitespace) :
    embed enc text = .error .invalidInput ∧
    onDocumentChanged enc store d text hash = (store, some .invalidInput) ∧
    handleSaveNote prev text post = prev := by
  have htrim : jsTrim text = [] := jsTrim_eq_nil text hws
  refine ⟨?_, ?_, ?_⟩
  · simp [embed, htrim]
  · simp [onDocumentChanged, embed, htrim]
  · simp [handleSaveNote, htrim]

/-- Witness for claim C4 at the single-space text. -/
theorem embed_rejects_whitespace_witness :
    ([' '] = ([] : List Char) ∨ ∀ c ∈ [' '], c.isWhitespace) ∧
    (embed (fun t => t.map (fun c => (c.toNat : ℚ))) [' ']
        = .error .invalidInput ∧
      onDocumentChanged (fun t => t.map (fun c => (c.toNat : ℚ))) [] 1 [' '] 0
        = ([], some .invalidInput) ∧
      handleSaveNote [] [' '] (.error 0) = []) :=
  ⟨Or.inr (by decide),
    embed_rejects_whitespace (fun t => t.map (fun c => (c.toNat : ℚ))) [] 1 0
      [' '] [] (.error 0) (Or.inr (by decide))⟩

/-- Claim C5, counterexample: the note with id 1 and no stored position is
rendered at the default position, which has three spatial components rather
than the two of a pure {docId, x, y} point: the rendering layer is a three.js
scene and receives a third coordinate. -/
theorem renderNode_has_third_component :
    (renderNode ⟨1, [], none⟩).position = [0, 0, 0] ∧
    (renderNode ⟨1, [], none⟩).position.length ≠ 2 := by
  constructor
  · rfl
  · decide

/-- Claim C5, amended: every note delivered to the rendering layer is rendered
as one node keyed by the note id; its position is the stored position array
when one is present, and the default origin otherwise; that default carries
three spatial components, not two. -/
theorem rendered_positions (notes : List Note) (i : Nat) (n : Note)
    (p : List ℚ) (hn : notes[i]? = some n) :
    (renderNodes notes)[i]? = some (renderNode n) ∧
    (renderNode n).key = n.id ∧
    (n.position = some p → (renderNode n).position = p) ∧
    (n.position = none → (renderNode n).position = [0, 0, 0] ∧
      (renderNode n).position.length = 3) := by
  refine ⟨?_, rfl, ?_, ?_⟩
  · simp [renderNodes, hn]
  · intro hpos
    simp [renderNode, hpos]
  · intro hpos
    constructor
    · simp [renderNode, hpos]
    · simp [renderNode, hpos]

/-- Witness for the amended claim C5, exercising both cases: a note with a
stored position array and a note without one. -/
theorem rendered_positions_witness :
    ([(⟨1, [], some [4, 5, 6]⟩ : Note)][0]?
        = some (⟨1, [], some [4, 5, 6]⟩ : Note)) ∧
    ((renderNodes [⟨1, [], some [4, 5, 6]⟩])[0]?
        = some (renderNode ⟨1, [], some [4, 5, 6]⟩) ∧
      (renderNode (⟨1, [], some [4, 5, 6]⟩ : Note)).key
        = (⟨1, [], some [4, 5, 6]⟩ : Note).id ∧
      ((⟨1, [], some [4, 5, 6]⟩ : Note).position = some [4, 5, 6] →
        (renderNode (⟨1, [], some [4, 5, 6]⟩ : Note)).position = [4, 5, 6]) ∧
      ((⟨1, [], some [4, 5, 6]⟩ : Note).position = none →
        (renderNode (⟨1, [], some [4, 5, 6]⟩ : Note)).position = [0, 0, 0] ∧
        (renderNode (⟨1, [], some [4, 5, 6]⟩ : Note)).position.length = 3)) ∧
    ([(⟨2, [], none⟩ : Note)][0]? = some (⟨2, [], none⟩ : Note)) ∧
    ((renderNodes [⟨2, [], none⟩])[0]? = some (renderNode ⟨2, [], none⟩) ∧
      (renderNode (⟨2, [], none⟩ : Note)).key = (⟨2, [], none⟩ : Note).id ∧
      ((⟨2, [], none⟩ : Note).position = some [0, 0, 0] →
        (renderNode (⟨2, [], none⟩ : Note)).position = [0, 0, 0]) ∧
      ((⟨2, [], none⟩ : Note).position = none →
        (renderNode (⟨2, [], none⟩ : Note)).position = [0, 0, 0] ∧
        (renderNode (⟨2, [], none⟩ : Note)).position.length = 3)) :=
  ⟨rfl,
    rendered_positions [⟨1, [], some [4, 5, 6]⟩] 0 ⟨1, [], some [4, 5, 6]⟩
      [4, 5, 6] rfl,
    rfl,
    rendered_positions [⟨2, [], none⟩] 0 ⟨2, [], none⟩ [0, 0, 0] rfl⟩

/-- Claim C8: if fetching the notes collection fails, the notes state is set
to the empty list, not left stale, and the visualizer renders an empty
scene. -/
theorem fetchNotes_error_empty (e : Nat) :
    fetchNotes (.error e) = [] ∧ renderNodes (fetchNotes (.error e)) = [] :=
  ⟨rfl, rfl⟩

/-- Claim C9: the visualizer renders exactly one node per note, at the same
index, keyed by the note id; a note that lacks a position value is rendered at
the default origin position rather than omitted. -/
theorem noteVisualizer_renders (notes : List Note) (i : Nat) (n : Note)
    (hpos : n.position = none) :
    (renderNodes notes).length = notes.length ∧
    (renderNodes notes)[i]? = (notes[i]?).map renderNode ∧
    (renderNode n).key = n.id ∧
    (renderNode n).position = [0, 0, 0] := by
  refine ⟨?_, ?_, rfl, ?_⟩
  · simp [renderNodes]
  · simp [renderNodes]
  · simp [renderNode, hpos]

/-- Witness for claim C9 at a concrete singleton note list. -/
theorem noteVisualizer_renders_witness :
    ((⟨5, [], none⟩ : Note).position = none) ∧
    ((renderNodes [⟨5, [], none⟩]).length = [(⟨5, [], none⟩ : Note)].length ∧
      (renderNodes [⟨5, [], none⟩])[0]?
        = ([(⟨5, [], none⟩ : Note)][0]?).map renderNode ∧
      (renderNode (⟨5, [], none⟩ : Note)).key = (⟨5, [], none⟩ : Note).id ∧
      (renderNode (⟨5, [], none⟩ : Note)).position = [0, 0, 0]) :=
  ⟨rfl, noteVisualizer_renders [⟨5, [], none⟩] 0 ⟨5, [], none⟩ rfl⟩

/-- Claim C10: a successful save of a note with nonempty trimmed content
appends exactly the returned note object at the end of the notes list, grows
the length by one, and leaves every previously held entry unchanged at its
original index. -/
theorem handleSaveNote_appends (prev : List Note) (content : List Char)
    (n : Note) (i : Nat) (h : jsTrim content ≠ []) (hi : i < prev.length) :
    handleSaveNote prev content (.ok n) = prev ++ [n] ∧
    (handleSaveNote prev content (.ok n)).length = prev.length + 1 ∧
    (handleSaveNote prev content (.ok n))[i]? = prev[i]? := by
  have he : handleSaveNote prev content (.ok n) = prev ++ [n] := by
    simp [handleSaveNote, h]
  refine ⟨he, ?_, ?_⟩
  · rw [he]; simp
  · rw [he]
    exact List.getElem?_append_left hi

/-- Witness for claim C10 at a concrete one-note state. -/
theorem handleSaveNote_appends_witness :
    jsTrim ['a'] ≠ [] ∧ 0 < [(⟨1, ['b'], none⟩ : Note)].length ∧
    (handleSaveNote [⟨1, ['b'], none⟩] ['a'] (.ok ⟨2, ['a'], none⟩)
        = [⟨1, ['b'], none⟩] ++ [⟨2, ['a'], none⟩] ∧
      (handleSaveNote [⟨1, ['b'], none⟩] ['a']
          (.ok ⟨2, ['a'], none⟩)).length
        = [(⟨1, ['b'], none⟩ : Note)].length + 1 ∧
      (handleSaveNote [⟨1, ['b'], none⟩] ['a'] (.ok ⟨2, ['a'], none⟩))[0]?
        = [(⟨1, ['b'], none⟩ : Note)][0]?) :=
  ⟨by decide, by decide,
    handleSaveNote_appends [⟨1, ['b'], none⟩] ['a'] ⟨2, ['a'], none⟩ 0
      (by decide) (by decide)⟩

end SemanticNotes
